import Mathlib

/-!
Verification development for the Movie-bot repository.

This file gives a shallow embedding, in Lean 4, of the core subsystems of the
bot: the per-user rate limiter (`Database.check_rate_limit`, search branch),
the daily verification token ledger (`VerificationSystem` together with the
`User` / `UserVerification` models), the URL-shortener fallback logic
(`VerificationSystem._create_short_url` and `URLShortener.shorten_url`), and
the bulk-upload drain loop (`BulkUploadHandler._process_upload_queue`).

Timestamps are modelled as integers (seconds); `datetime.utcnow()` /
`datetime.now()` become explicit `now : Int` parameters.  Database rows become
Lean structures, tables become lists, SQLAlchemy / sqlite queries become
`List.find?` / `List.countP`, and in-place row mutation becomes replacing the
first matching element of the list.  Nondeterministic inputs (the generated
token string, the HTTP outcome of the shortener call) become explicit
parameters.  Exceptions are modelled as explicit outcome constructors.
-/

namespace MovieBot

/-! ### Rate limiting (`Database.check_rate_limit`, `action == "search"`)

The sqlite table `rate_limits` keys rows by `user_id`; all claims concern a
single subject performing only search actions, so the subject's row is an
`Option RateRow` holding the search columns (`last_search`, `search_count`).
`SEARCH_LIMIT` and `SEARCH_WINDOW` are the constants 5 and 60 seconds
hard-coded in the `"search"` branch ("5 per minute"). -/

/-- One row of the `rate_limits` table, restricted to the search columns. -/
structure RateRow where
  last_search : Int
  search_count : Nat
deriving DecidableEq, Repr

/-- The `COALESCE((SELECT CASE WHEN last_search > ? THEN search_count + 1 ELSE 1
END ...), 1)` expression of the `INSERT OR REPLACE` statement: the new value of
`search_count` written on an allowed call. -/
def newSearchCount (row : Option RateRow) (minute_ago : Int) : Nat :=
  match row with
  | some r => if minute_ago < r.last_search then r.search_count + 1 else 1
  | none => 1

/-- Embedding of `Database.check_rate_limit(user_id, "search")`: the subject's
stored row plus the current time map to the returned boolean and the row after
the call.  The `SELECT` with `WHERE last_search > minute_ago` yields the count
only when the row exists and is fresh; a fresh count `>= 5` denies the call and
returns before any write; otherwise the `INSERT OR REPLACE` stores `now` and
the updated count and the call is allowed. -/
def check_rate_limit_search (now : Int) (row : Option RateRow) :
    Bool × Option RateRow :=
  let minute_ago := now - 60
  let sel : Option Nat :=
    match row with
    | some r => if minute_ago < r.last_search then some r.search_count else none
    | none => none
  match sel with
  | some c =>
      if 5 ≤ c then (false, row)
      else (true, some ⟨now, newSearchCount row minute_ago⟩)
  | none => (true, some ⟨now, newSearchCount row minute_ago⟩)

/-- Run a sequence of admission checks for the same subject at the given call
times, returning the list of returned booleans and the final stored row. -/
def runCalls (row : Option RateRow) : List Int → List Bool × Option RateRow
  | [] => ([], row)
  | t :: ts =>
      let step := check_rate_limit_search t row
      let rest := runCalls step.2 ts
      (step.1 :: rest.1, rest.2)

/-! ### Verification ledger (`models.py` and `verification_system.py`)

`User` and `UserVerification` mirror the SQLAlchemy models; the two tables
become lists of rows inside `LedgerState`.  `User.user_id` and
`UserVerification.verification_token` carry unique constraints in the schema,
so queries with `.first()` become `List.find?` and an ORM in-place row update
becomes replacement of the first matching element. -/

/-- Row of the `users` table: the fields relevant to the daily verification
window (`last_verified`, `verification_count`). -/
structure User where
  user_id : Int
  last_verified : Option Int
  verification_count : Nat
deriving DecidableEq, Repr

/-- Embedding of `User.is_verified_today`: false with no prior verification,
otherwise true iff less than 24 hours (86400 seconds) have elapsed. -/
def User.is_verified_today (now : Int) (u : User) : Bool :=
  match u.last_verified with
  | none => false
  | some t => decide (now - t < 86400)

/-- Embedding of `User.mark_verified`: stamp the current time and bump the count. -/
def User.mark_verified (now : Int) (u : User) : User :=
  { u with last_verified := some now, verification_count := u.verification_count + 1 }

/-- Row of the `user_verifications` table. -/
structure UserVerification where
  verification_token : String
  user_id : Int
  movie_id : Int
  short_url : String
  created_at : Int
  expires_at : Int
  verified_at : Option Int
  is_verified : Bool
  is_expired : Bool
deriving DecidableEq, Repr

/-- Embedding of the `UserVerification.is_valid` property:
`not self.is_expired and datetime.utcnow() < self.expires_at`. -/
def UserVerification.is_valid (now : Int) (v : UserVerification) : Bool :=
  !v.is_expired && decide (now < v.expires_at)

/-- State of the two ledger tables. -/
structure LedgerState where
  verifications : List UserVerification
  users : List User
deriving DecidableEq, Repr

/-- The filter `verification_token=token, is_verified=False` used by
`verify_user_by_token`'s query. -/
def tokenPending (tok : String) (v : UserVerification) : Bool :=
  v.verification_token == tok && !v.is_verified

/-- The query `UserVerification.query.filter_by(verification_token=token,
is_verified=False).first()`. -/
def findVerification (tok : String) (l : List UserVerification) :
    Option UserVerification :=
  l.find? (tokenPending tok)

/-- The filter `user_id=uid` of `User.query.filter_by(user_id=...)`. -/
def userById (uid : Int) (u : User) : Bool :=
  u.user_id == uid

/-- ORM-style in-place update: replace the first element satisfying `p` by its
image under `f`, leaving everything else untouched. -/
def updateFirst (p : α → Bool) (f : α → α) : List α → List α
  | [] => []
  | x :: xs => if p x then f x :: xs else x :: updateFirst p f xs

/-- Embedding of `VerificationSystem.create_verification_request`: append a new
pending `UserVerification` row with `expires_at = now + 24h`.  The generated
token and the (possibly shortened) URL are passed in as parameters; no existing
row is touched. -/
def create_verification_request (now : Int) (user_id movie_id : Int)
    (token short_url : String) (s : LedgerState) : LedgerState :=
  { s with
    verifications := s.verifications ++
      [{ verification_token := token
         user_id := user_id
         movie_id := movie_id
         short_url := short_url
         created_at := now
         expires_at := now + 86400
         verified_at := none
         is_verified := false
         is_expired := false }] }

/-- Result record of `VerificationSystem.verify_user_by_token`; the three
user-facing messages are abstracted to their kind. -/
inductive VerifyMessage
  | invalidMsg
  | expiredMsg
  | successMsg
deriving DecidableEq, Repr

/-- The dictionary returned by `verify_user_by_token`. -/
structure VerifyResult where
  success : Bool
  user_id : Option Int
  movie_id : Option Int
  message : VerifyMessage
deriving DecidableEq, Repr

/-- The mutation `verification.is_verified = True;
verification.verified_at = datetime.utcnow()`. -/
def setVerified (now : Int) (w : UserVerification) : UserVerification :=
  { w with is_verified := true, verified_at := some now }

/-- The mutation `verification.is_expired = True`. -/
def setExpired (w : UserVerification) : UserVerification :=
  { w with is_expired := true }

/-- The users-table effect of a successful verification: mark the existing user
row verified, or insert a fresh `User(user_id=...)` row and mark it. -/
def markUserVerified (now : Int) (uid : Int) (users : List User) : List User :=
  match users.find? (userById uid) with
  | some _ => updateFirst (userById uid) (User.mark_verified now) users
  | none =>
      users ++ [User.mark_verified now
        { user_id := uid, last_verified := none, verification_count := 0 }]

/-- Embedding of `VerificationSystem.verify_user_by_token`: look up the first
unverified row with the given token; if none, fail with the invalid-link
message and leave the state alone; if the row is no longer valid, set its
`is_expired` flag and fail with the expired message; otherwise mark the row
verified, stamp `verified_at`, and mark the user verified (creating the user
row if absent). -/
def verify_user_by_token (now : Int) (tok : String) (s : LedgerState) :
    VerifyResult × LedgerState :=
  match findVerification tok s.verifications with
  | none =>
      ({ success := false, user_id := none, movie_id := none,
         message := .invalidMsg }, s)
  | some v =>
      if v.is_valid now then
        ({ success := true, user_id := some v.user_id,
           movie_id := some v.movie_id, message := .successMsg },
         { verifications :=
             updateFirst (tokenPending tok) (setVerified now) s.verifications
           users := markUserVerified now v.user_id s.users })
      else
        ({ success := false, user_id := some v.user_id,
           movie_id := some v.movie_id, message := .expiredMsg },
         { s with
           verifications :=
             updateFirst (tokenPending tok) setExpired s.verifications })

/-- Whether the subject's 24-hour access window is open in a given users table:
the row lookup composed with `User.is_verified_today` (a missing user needs
verification, per `check_user_verification_status`). -/
def userWindowOpen (now : Int) (users : List User) (uid : Int) : Bool :=
  match users.find? (userById uid) with
  | none => false
  | some u => u.is_verified_today now

/-- The counts computed by `VerificationSystem.get_verification_stats`
(`success_rate`, a float, is omitted). -/
structure VerificationStats where
  total_verifications : Nat
  successful_verifications : Nat
  pending_verifications : Nat
  expired_verifications : Nat
  today_verifications : Nat
deriving DecidableEq, Repr

/-- Embedding of `VerificationSystem.get_verification_stats`: each count is an
independent filtered count over the `user_verifications` table. -/
def get_verification_stats (todayStart : Int) (l : List UserVerification) :
    VerificationStats :=
  { total_verifications := l.length
    successful_verifications := l.countP (fun v => v.is_verified)
    pending_verifications := l.countP (fun v => !v.is_verified)
    expired_verifications := l.countP (fun v => v.is_expired)
    today_verifications := l.countP (fun v => decide (todayStart ≤ v.created_at)) }

/-! ### URL shortening (`VerificationSystem._create_short_url` and
`URLShortener.shorten_url`)

The HTTP interaction is abstracted into an explicit outcome parameter; a raised
exception anywhere inside the `try` block is the `exn` constructor. -/

/-- The callback URL built by `create_verification_request`:
`https://t.me/{BOT_USERNAME}?start=verify_{token}`.  The `except` branch of
`_create_short_url` rebuilds exactly this string. -/
def mkVerifyUrl (botUsername token : String) : String :=
  "https://t.me/" ++ botUsername ++ "?start=verify_" ++ token

/-- Outcome of the InShort POST performed by `_create_short_url`: either a
response with its HTTP status, whether the JSON body carried
`status == "success"`, and the `shortenedUrl` field, or a raised exception. -/
inductive ShortApiOutcome
  | response (status : Nat) (apiSuccess : Bool) (shortenedUrl : String)
  | exn
deriving DecidableEq, Repr

/-- Embedding of `VerificationSystem._create_short_url`: on a 200 response
whose body reports success, return the API's shortened URL; otherwise fall
through to the fabricated fallback `https://short.link/{token[:8]}`; on a
raised exception, return the rebuilt original callback URL. -/
def create_short_url (botUsername token : String) (o : ShortApiOutcome) :
    String :=
  match o with
  | .response status apiSuccess url =>
      if status == 200 && apiSuccess then url
      else "https://short.link/" ++ token.take 8
  | .exn => mkVerifyUrl botUsername token

/-- Outcome of the GET performed by `URLShortener.shorten_url`: an HTTP status
plus the text body, or a raised exception. -/
inductive HttpTextOutcome
  | response (status : Nat) (body : String)
  | exn
deriving DecidableEq, Repr

/-- Embedding of `URLShortener.shorten_url` (`url_shortener.py`): with no API
token configured, or on a non-200 status, an invalid body (empty or not
starting with `http` after stripping), or a raised exception, the original URL
is returned unchanged; only a 200 response with a plausible body yields the
stripped shortened URL. -/
def shorten_url (api_token : Option String) (original_url : String)
    (o : HttpTextOutcome) : String :=
  match api_token with
  | none => original_url
  | some _ =>
      match o with
      | .response status body =>
          if status == 200 then
            let t := body.trim
            if !t.isEmpty && t.startsWith "http" then t else original_url
          else original_url
      | .exn => original_url

/-! ### Bulk upload drain loop (`BulkUploadHandler._process_upload_queue`)

The queue is a FIFO list of items of an arbitrary type; one iteration of the
`while` loop pops `min(MAX_CONCURRENT_UPLOADS, len(queue))` items off the head.
`asyncio.gather(..., return_exceptions=True)` turns each item's processing into
an explicit `ProcResult`: `ok` for a `True` return, `err` for a `False` return
(`_process_single_upload` catches its own exceptions and returns `False`), and
`exn` for an exception object appearing in the gathered results. -/

/-- Config constant `Config.MAX_CONCURRENT_UPLOADS`. -/
def MAX_CONCURRENT_UPLOADS : Nat := 5

/-- Result of processing one queued item, as seen by the drain loop's counting
pass over `asyncio.gather(..., return_exceptions=True)`. -/
inductive ProcResult
  | ok
  | err
  | exn
deriving DecidableEq, Repr

/-- Whether a result is counted in `failed_count` (an exception instance or a
falsy return value). -/
def resultFailed : ProcResult → Bool
  | .ok => false
  | .err => true
  | .exn => true

/-- The successive batches popped by the drain loop: while the queue is
non-empty, pop the first `MAX_CONCURRENT_UPLOADS` items. -/
def drainBatches : List α → List (List α)
  | [] => []
  | x :: xs =>
      (x :: xs).take MAX_CONCURRENT_UPLOADS ::
        drainBatches ((x :: xs).drop MAX_CONCURRENT_UPLOADS)
termination_by l => l.length
decreasing_by simp [MAX_CONCURRENT_UPLOADS]; omega

/-- Observable event of one drain run: a batch being processed, or the
inter-batch sleep. -/
inductive DrainEvent (α : Type u)
  | batch (items : List α)
  | delay
deriving DecidableEq, Repr

/-- The event trace of the drain loop: process a batch, then sleep
`BULK_UPLOAD_DELAY` only if the queue is still non-empty
(`if self.upload_queue: await asyncio.sleep(...)`). -/
def drainTrace : List α → List (DrainEvent α)
  | [] => []
  | x :: xs =>
      DrainEvent.batch ((x :: xs).take MAX_CONCURRENT_UPLOADS) ::
        (if ((x :: xs).drop MAX_CONCURRENT_UPLOADS).isEmpty then []
         else DrainEvent.delay ::
           drainTrace ((x :: xs).drop MAX_CONCURRENT_UPLOADS))
termination_by l => l.length
decreasing_by simp [MAX_CONCURRENT_UPLOADS]; omega

/-- The `for result in results` counting pass over one gathered batch:
exceptions and falsy returns increment `failed_count`, truthy returns increment
`processed_count`. -/
def batchCounts (proc : α → ProcResult) (b : List α) : Nat × Nat :=
  b.foldl
    (fun pf i =>
      match proc i with
      | .exn => (pf.1, pf.2 + 1)
      | .ok => (pf.1 + 1, pf.2)
      | .err => (pf.1, pf.2 + 1))
    (0, 0)

/-- The `(processed_count, failed_count)` totals of one whole drain run over
the queue. -/
def drainCounts (proc : α → ProcResult) : List α → Nat × Nat
  | [] => (0, 0)
  | x :: xs =>
      ((batchCounts proc ((x :: xs).take MAX_CONCURRENT_UPLOADS)).1 +
         (drainCounts proc ((x :: xs).drop MAX_CONCURRENT_UPLOADS)).1,
       (batchCounts proc ((x :: xs).take MAX_CONCURRENT_UPLOADS)).2 +
         (drainCounts proc ((x :: xs).drop MAX_CONCURRENT_UPLOADS)).2)
termination_by l => l.length
decreasing_by simp [MAX_CONCURRENT_UPLOADS]; omega

/-! ### Concrete fixtures used by counterexamples and witnesses -/

/-- A pending, unexpired verification row: token `"a"` bound to subject 1 and
resource 2, expiring at time 100. -/
def vA : UserVerification :=
  { verification_token := "a", user_id := 1, movie_id := 2, short_url := "u"
    created_at := 0, expires_at := 100, verified_at := none
    is_verified := false, is_expired := false }

/-- A ledger holding just the pending row `vA` and no users. -/
def sA : LedgerState := { verifications := [vA], users := [] }

/-- An unverified row whose `is_expired` flag is set. -/
def vExp : UserVerification :=
  { verification_token := "e", user_id := 1, movie_id := 2, short_url := "u"
    created_at := 0, expires_at := 10, verified_at := none
    is_verified := false, is_expired := true }

/-! Step lemmas for `check_rate_limit_search`. -/

/-- With no stored row, a check is allowed and a fresh bucket of count 1 is written. -/
theorem check_none (now : Int) :
    check_rate_limit_search now none = (true, some ⟨now, 1⟩) := rfl

/-- A fresh bucket below the limit admits the call and increments the count,
sliding `last_search` to the current time. -/
theorem check_fresh_below (now : Int) (r : RateRow)
    (hfresh : now - r.last_search < 60) (hbelow : r.search_count < 5) :
    check_rate_limit_search now (some r) =
      (true, some ⟨now, r.search_count + 1⟩) := by
  have h1 : now - 60 < r.last_search := by omega
  have h2 : ¬ (5 ≤ r.search_count) := by omega
  simp [check_rate_limit_search, newSearchCount, h1, h2]

/-- A fresh bucket at or above the limit denies the call and leaves the row as it was. -/
theorem check_fresh_atLimit (now : Int) (r : RateRow)
    (hfresh : now - r.last_search < 60) (hat : 5 ≤ r.search_count) :
    check_rate_limit_search now (some r) = (false, some r) := by
  have h1 : now - 60 < r.last_search := by omega
  simp [check_rate_limit_search, h1, hat]

/-- A stale bucket (window elapsed since the last allowed call) admits the call
and lazily resets the bucket to count 1 at the current time. -/
theorem check_stale (now : Int) (r : RateRow)
    (hstale : r.last_search ≤ now - 60) :
    check_rate_limit_search now (some r) = (true, some ⟨now, 1⟩) := by
  have h1 : ¬ (now - 60 < r.last_search) := by omega
  simp [check_rate_limit_search, newSearchCount, h1]

/-- C2 (counterexample to the claim as stated): starting from an empty bucket,
five search checks at times 0, 10, 20, 30, 40 are all allowed; a sixth check at
time 61 — more than 60 seconds after the 1st call — is still denied, because
the bucket's timestamp slides to the time of each allowed call (here 40), so
the window is not measured from the bucket's first call.  The claim predicts
the call at 61 returns true. -/
theorem C2_counterexample :
    (runCalls none [0, 10, 20, 30, 40, 61]).1 =
      [true, true, true, true, true, false] := by decide

/-- C2 (amended): with limit 5 and a 60-second window, the 6th admission check
by the same subject within 60 seconds of the 1st returns false; and after 60
seconds have elapsed from the LAST ALLOWED call (not the 1st), a subsequent
admission check returns true again, the bucket lazily reset to count 1 — the
bucket timestamp is updated to the current time on every allowed call, so the
window is measured from the last allowed call. -/
theorem C2_rate_window (t1 t2 t3 t4 t5 t6 : Int)
    (h12 : t1 ≤ t2) (h23 : t2 ≤ t3) (h34 : t3 ≤ t4) (h45 : t4 ≤ t5)
    (h56 : t5 ≤ t6) (hwin : t6 < t1 + 60) :
    (runCalls none [t1, t2, t3, t4, t5, t6]).1 =
        [true, true, true, true, true, false]
    ∧ ∀ (now : Int) (r : RateRow), r.last_search ≤ now - 60 →
        check_rate_limit_search now (some r) = (true, some ⟨now, 1⟩) := by
  refine ⟨?_, fun now r h => check_stale now r h⟩
  have c1 : check_rate_limit_search t1 none = (true, some ⟨t1, 1⟩) :=
    check_none t1
  have c2 : check_rate_limit_search t2 (some ⟨t1, 1⟩) = (true, some ⟨t2, 2⟩) :=
    check_fresh_below t2 ⟨t1, 1⟩ (by show t2 - t1 < 60; omega)
      (by show 1 < 5; omega)
  have c3 : check_rate_limit_search t3 (some ⟨t2, 2⟩) = (true, some ⟨t3, 3⟩) :=
    check_fresh_below t3 ⟨t2, 2⟩ (by show t3 - t2 < 60; omega)
      (by show 2 < 5; omega)
  have c4 : check_rate_limit_search t4 (some ⟨t3, 3⟩) = (true, some ⟨t4, 4⟩) :=
    check_fresh_below t4 ⟨t3, 3⟩ (by show t4 - t3 < 60; omega)
      (by show 3 < 5; omega)
  have c5 : check_rate_limit_search t5 (some ⟨t4, 4⟩) = (true, some ⟨t5, 5⟩) :=
    check_fresh_below t5 ⟨t4, 4⟩ (by show t5 - t4 < 60; omega)
      (by show 4 < 5; omega)
  have c6 : check_rate_limit_search t6 (some ⟨t5, 5⟩) = (false, some ⟨t5, 5⟩) :=
    check_fresh_atLimit t6 ⟨t5, 5⟩ (by show t6 - t5 < 60; omega)
      (by show 5 ≤ 5; omega)
  simp [runCalls, c1, c2, c3, c4, c5, c6]

/-- Witness for C2_rate_window at concrete call times. -/
theorem C2_rate_window_witness :
    (runCalls none [0, 10, 20, 30, 40, 50]).1 =
        [true, true, true, true, true, false]
    ∧ check_rate_limit_search 101 (some ⟨40, 5⟩) = (true, some ⟨101, 1⟩) :=
  ⟨(C2_rate_window 0 10 20 30 40 50 (by omega) (by omega) (by omega) (by omega)
      (by omega) (by omega)).1,
   (C2_rate_window 0 10 20 30 40 50 (by omega) (by omega) (by omega) (by omega)
      (by omega) (by omega)).2 101 ⟨40, 5⟩ (by show (40:Int) ≤ 101 - 60; omega)⟩

/-- C9: when the subject's stored bucket already has 5 or more recorded uses
within the 60-second window, the admission check returns false and the stored
rate-limit row — both count and timestamp — is left unchanged: the denied call
returns before the `INSERT OR REPLACE` runs. -/
theorem C9_denied_without_side_effect (now : Int) (r : RateRow)
    (hfresh : now - r.last_search < 60) (hat : 5 ≤ r.search_count) :
    check_rate_limit_search now (some r) = (false, some r) :=
  check_fresh_atLimit now r hfresh hat

/-- Witness for C9_denied_without_side_effect at a concrete bucket. -/
theorem C9_denied_without_side_effect_witness :
    check_rate_limit_search 10 (some ⟨0, 7⟩) = (false, some ⟨0, 7⟩) :=
  C9_denied_without_side_effect 10 ⟨0, 7⟩ (by show (10:Int) - 0 < 60; omega)
    (by show 5 ≤ 7; omega)

/-! Generic helper lemmas about `countP`, `find?` and `updateFirst`. -/

/-- Complementary Boolean counts add up to the length. -/
theorem countP_bool_total (q : α → Bool) (l : List α) :
    l.countP (fun a => !q a) + l.countP q = l.length := by
  induction l with
  | nil => rfl
  | cons x xs ih =>
      cases hq : q x <;> simp [List.countP_cons, hq] <;> omega

/-- Splitting a count along a second Boolean predicate. -/
theorem countP_split (p q : α → Bool) (l : List α) :
    l.countP p =
      l.countP (fun a => p a && q a) + l.countP (fun a => p a && !q a) := by
  induction l with
  | nil => rfl
  | cons x xs ih =>
      cases hp : p x <;> cases hq : q x <;>
        simp [List.countP_cons, hp, hq, ih] <;> omega

/-- Updating the found element keeps it found when `f` preserves the predicate. -/
theorem find?_updateFirst_pos (p : α → Bool) (f : α → α) :
    ∀ (l : List α) (a : α), l.find? p = some a → p (f a) = true →
      (updateFirst p f l).find? p = some (f a) := by
  intro l
  induction l with
  | nil => intro a hfind _; simp at hfind
  | cons x xs ih =>
      intro a hfind hpf
      by_cases hx : p x = true
      · rw [List.find?_cons_of_pos _ hx] at hfind
        injection hfind with h
        subst h
        simp [updateFirst, hx, List.find?_cons_of_pos _ hpf]
      · rw [List.find?_cons_of_neg _ hx] at hfind
        simp only [updateFirst, hx, Bool.false_eq_true, if_false]
        rw [List.find?_cons_of_neg _ hx]
        exact ih a hfind hpf

/-- Updating the found element removes every match when `f` kills the predicate
and the list holds at most one element of the enclosing kind `tk`. -/
theorem find?_updateFirst_none (p tk : α → Bool) (f : α → α)
    (himp : ∀ b, p b = true → tk b = true)
    (hpf : ∀ b, p (f b) = false) :
    ∀ (l : List α) (a : α), l.countP tk ≤ 1 → l.find? p = some a →
      (updateFirst p f l).find? p = none := by
  intro l
  induction l with
  | nil => intro a _ hfind; simp at hfind
  | cons x xs ih =>
      intro a hcount hfind
      by_cases hx : p x = true
      · have htkx : tk x = true := himp x hx
        have hxs : xs.countP tk = 0 := by
          rw [List.countP_cons, if_pos htkx] at hcount
          omega
        simp only [updateFirst, hx, if_true]
        rw [List.find?_cons_of_neg _ (by simp [hpf x])]
        refine List.find?_eq_none.2 fun b hb hpb => ?_
        have htkb : tk b = true := himp b hpb
        have hzero := (List.countP_eq_zero.1 hxs) b hb
        simp [htkb] at hzero
      · have hcount' : xs.countP tk ≤ 1 := by
          rw [List.countP_cons] at hcount
          by_cases htk : tk x = true
          · rw [if_pos htk] at hcount; omega
          · rw [if_neg htk] at hcount; omega
        rw [List.find?_cons_of_neg _ hx] at hfind
        simp only [updateFirst, hx, Bool.false_eq_true, if_false]
        rw [List.find?_cons_of_neg _ hx]
        exact ih a hcount' hfind

/-- A token found among existing rows is still found after rows are appended. -/
theorem findVerification_append (tok : String) (l l' : List UserVerification)
    (v : UserVerification) (h : findVerification tok l = some v) :
    findVerification tok (l ++ l') = some v := by
  simp only [findVerification, List.find?_append] at h ⊢
  rw [h]
  rfl

/-- After `markUserVerified now uid users`, the subject's window is open at
`now'` exactly when less than 24 hours separate `now'` from `now` — whether the
user row already existed or was freshly inserted. -/
theorem markUserVerified_window (now now' uid : Int) (users : List User) :
    userWindowOpen now' (markUserVerified now uid users) uid =
      decide (now' - now < 86400) := by
  cases hU : users.find? (userById uid) with
  | some u0 =>
      have hp : userById uid (User.mark_verified now u0) = true := by
        simpa [userById, User.mark_verified] using List.find?_some hU
      have hfp := find?_updateFirst_pos (userById uid) (User.mark_verified now)
        users u0 hU hp
      simp [markUserVerified, userWindowOpen, hU, hfp,
        User.is_verified_today, User.mark_verified]
  | none =>
      simp [markUserVerified, userWindowOpen, hU, List.find?_append,
        userById, User.mark_verified, User.is_verified_today]

/-! ### Claim theorems for the verification ledger -/

/-- C1 (counterexample to the claim as stated): with one live token `"a"` for
the pair (subject 1, resource 2), issuing a new challenge for the same pair
leaves TWO live tokens for that pair, and resolving the first token afterwards
still succeeds — the claim predicts that resolution fails. -/
theorem C1_counterexample :
    (verify_user_by_token 50 "a"
        (create_verification_request 10 1 2 "b" "su" sA)).1.success = true
    ∧ (create_verification_request 10 1 2 "b" "su" sA).verifications.countP
        (fun v => !v.is_verified && !v.is_expired && decide ((50:Int) < v.expires_at))
        = 2 := by decide

/-- C1 (amended): issuing a new challenge does NOT invalidate an existing live
token for the same (subject, resource) pair: `create_verification_request`
only appends a fresh pending row, so resolving the earlier token afterwards
returns exactly the same (successful) result as without the new challenge.
Multiple live tokens for one pair may coexist. -/
theorem C1_issue_does_not_invalidate (s : LedgerState)
    (now now₂ uid mid : Int) (tok tok₂ su : String)
    (hsucc : (verify_user_by_token now tok s).1.success = true) :
    (verify_user_by_token now tok
        (create_verification_request now₂ uid mid tok₂ su s)).1 =
      (verify_user_by_token now tok s).1
    ∧ (verify_user_by_token now tok
        (create_verification_request now₂ uid mid tok₂ su s)).1.success
        = true := by
  cases hfind : findVerification tok s.verifications with
  | none => simp [verify_user_by_token, hfind] at hsucc
  | some v =>
      have hfind' := findVerification_append tok s.verifications
        [{ verification_token := tok₂, user_id := uid, movie_id := mid,
           short_url := su, created_at := now₂, expires_at := now₂ + 86400,
           verified_at := none, is_verified := false, is_expired := false }]
        v hfind
      cases hval : v.is_valid now with
      | false => simp [verify_user_by_token, hfind, hval] at hsucc
      | true =>
          constructor <;>
            simp [verify_user_by_token, create_verification_request, hfind,
              hfind', hval]

/-- Witness for C1_issue_does_not_invalidate at the concrete ledger `sA`. -/
theorem C1_issue_does_not_invalidate_witness :
    (verify_user_by_token 50 "a"
        (create_verification_request 10 1 2 "b" "su" sA)).1 =
      (verify_user_by_token 50 "a" sA).1
    ∧ (verify_user_by_token 50 "a"
        (create_verification_request 10 1 2 "b" "su" sA)).1.success = true :=
  C1_issue_does_not_invalidate sA 50 10 1 2 "a" "b" "su" (by decide)

/-- C4: a token resolved once cannot be resolved again — after a successful
resolution, a second `verify_user_by_token` call with the same token (at any
later time) returns the NotFound-style failure (`invalidMsg`) and leaves the
whole ledger state, in particular the subject's last-verified timestamp,
unchanged.  The token-uniqueness hypothesis mirrors the schema's unique
constraint on `verification_token`. -/
theorem C4_resolve_idempotent (now now' : Int) (tok : String) (s : LedgerState)
    (huniq : s.verifications.countP (fun w => w.verification_token == tok) ≤ 1)
    (hsucc : (verify_user_by_token now tok s).1.success = true) :
    (verify_user_by_token now' tok (verify_user_by_token now tok s).2).1 =
      { success := false, user_id := none, movie_id := none,
        message := .invalidMsg }
    ∧ (verify_user_by_token now' tok (verify_user_by_token now tok s).2).2 =
      (verify_user_by_token now tok s).2 := by
  cases hfind : findVerification tok s.verifications with
  | none => simp [verify_user_by_token, hfind] at hsucc
  | some v =>
      cases hval : v.is_valid now with
      | false => simp [verify_user_by_token, hfind, hval] at hsucc
      | true =>
          have hnone : findVerification tok
              (updateFirst (tokenPending tok) (setVerified now)
                s.verifications) = none := by
            refine find?_updateFirst_none (tokenPending tok)
              (fun w => w.verification_token == tok) (setVerified now)
              (fun b hb => ?_) (fun b => ?_) s.verifications v huniq
              (by simpa [findVerification] using hfind)
            · simp [tokenPending] at hb
              simp [hb.1]
            · simp [tokenPending, setVerified]
          constructor <;>
            simp [verify_user_by_token, hfind, hval, hnone]

/-- Witness for C4_resolve_idempotent on the concrete ledger `sA`. -/
theorem C4_resolve_idempotent_witness :
    (verify_user_by_token 50 "a" (verify_user_by_token 5 "a" sA).2).1 =
      { success := false, user_id := none, movie_id := none,
        message := .invalidMsg }
    ∧ (verify_user_by_token 50 "a" (verify_user_by_token 5 "a" sA).2).2 =
      (verify_user_by_token 5 "a" sA).2 :=
  C4_resolve_idempotent 5 50 "a" sA (by decide) (by decide)

/-- C5: resolving a pending token at or after its expiry instant fails with the
Expired result, flags exactly that row `is_expired` (leaving all other rows
and every other field, in particular `is_verified`, unchanged), and does not
touch the users table, so the subject's verification window is not updated.
The row found afterwards for the same token is the same row with only the
`is_expired` flag set. -/
theorem C5_expired_rejection (now : Int) (tok : String) (s : LedgerState)
    (v : UserVerification)
    (hfind : findVerification tok s.verifications = some v)
    (hexp : v.expires_at ≤ now) :
    (verify_user_by_token now tok s).1 =
      { success := false, user_id := some v.user_id,
        movie_id := some v.movie_id, message := .expiredMsg }
    ∧ (verify_user_by_token now tok s).2.users = s.users
    ∧ (verify_user_by_token now tok s).2.verifications =
        updateFirst (tokenPending tok) setExpired s.verifications
    ∧ findVerification tok (verify_user_by_token now tok s).2.verifications =
        some (setExpired v) := by
  have hval : v.is_valid now = false := by
    simp only [UserVerification.is_valid]
    have hlt : ¬ (now < v.expires_at) := by omega
    simp [hlt]
  have hpv : tokenPending tok v = true :=
    List.find?_some (by simpa [findVerification] using hfind)
  have hpse : tokenPending tok (setExpired v) = true := by
    simpa [tokenPending, setExpired] using hpv
  have h4 : findVerification tok
      (updateFirst (tokenPending tok) setExpired s.verifications) =
        some (setExpired v) :=
    find?_updateFirst_pos (tokenPending tok) setExpired
      s.verifications v (by simpa [findVerification] using hfind) hpse
  refine ⟨?_, ?_, ?_, ?_⟩ <;>
    simp [verify_user_by_token, hfind, hval, h4]

/-- Witness for C5_expired_rejection: the pending row `vA` expires at 100 and
is resolved at 200. -/
theorem C5_expired_rejection_witness :
    (verify_user_by_token 200 "a" sA).1 =
      { success := false, user_id := some vA.user_id,
        movie_id := some vA.movie_id, message := .expiredMsg }
    ∧ (verify_user_by_token 200 "a" sA).2.users = sA.users
    ∧ (verify_user_by_token 200 "a" sA).2.verifications =
        updateFirst (tokenPending "a") setExpired sA.verifications
    ∧ findVerification "a" (verify_user_by_token 200 "a" sA).2.verifications =
        some (setExpired vA) :=
  C5_expired_rejection 200 "a" sA vA (by decide) (by decide)

/-- C6: immediately after a successful resolution at time `now` of a token
bound to subject `uid`, the subject's 24-hour window is open, and it stays open
at a later instant `now'` exactly while `now' - now < 24h`; in general, for any
users table, the window is open iff a user row exists whose last successful
verification lies strictly less than 24 hours in the past. -/
theorem C6_window_open_iff (now : Int) (tok : String) (s : LedgerState)
    (uid : Int)
    (hsucc : (verify_user_by_token now tok s).1.success = true)
    (huid : (verify_user_by_token now tok s).1.user_id = some uid) :
    (∀ now' : Int,
        userWindowOpen now' (verify_user_by_token now tok s).2.users uid =
          decide (now' - now < 86400))
    ∧ ∀ (users : List User) (u t : Int),
        userWindowOpen t users u = true ↔
          ∃ usr, users.find? (userById u) = some usr ∧
            ∃ tv, usr.last_verified = some tv ∧ t - tv < 86400 := by
  constructor
  · cases hfind : findVerification tok s.verifications with
    | none => simp [verify_user_by_token, hfind] at hsucc
    | some v =>
        cases hval : v.is_valid now with
        | false => simp [verify_user_by_token, hfind, hval] at hsucc
        | true =>
            have huid' : v.user_id = uid := by
              simpa [verify_user_by_token, hfind, hval] using huid
            subst huid'
            intro now'
            simp [verify_user_by_token, hfind, hval,
              markUserVerified_window now now' v.user_id s.users]
  · intro users u t
    cases hU : users.find? (userById u) with
    | none => simp [userWindowOpen, hU]
    | some usr =>
        cases hlv : usr.last_verified with
        | none => simp [userWindowOpen, hU, User.is_verified_today, hlv]
        | some tv => simp [userWindowOpen, hU, User.is_verified_today, hlv]

/-- Witness for C6_window_open_iff on the concrete ledger `sA`. -/
theorem C6_window_open_iff_witness :
    userWindowOpen 7 (verify_user_by_token 5 "a" sA).2.users 1 =
      decide ((7:Int) - 5 < 86400) :=
  (C6_window_open_iff 5 "a" sA 1 (by decide) (by decide)).1 7

/-- C10: in `get_verification_stats`, pending counts the unverified rows and
successful the verified ones, so pending + successful always equals the total;
every unverified row with the `is_expired` flag set is also counted as pending;
and consequently the three reported counts do not partition the table — on a
ledger holding one expired-flagged unverified row, pending + successful +
expired is 2, not the total 1. -/
theorem C10_stats_counts :
    (∀ (ts : Int) (l : List UserVerification),
        (get_verification_stats ts l).pending_verifications +
            (get_verification_stats ts l).successful_verifications =
          (get_verification_stats ts l).total_verifications
        ∧ (get_verification_stats ts l).pending_verifications =
            l.countP (fun v => !v.is_verified && v.is_expired) +
              l.countP (fun v => !v.is_verified && !v.is_expired))
    ∧ (get_verification_stats 0 [vExp]).pending_verifications +
          (get_verification_stats 0 [vExp]).successful_verifications +
          (get_verification_stats 0 [vExp]).expired_verifications ≠
        (get_verification_stats 0 [vExp]).total_verifications := by
  refine ⟨fun ts l => ⟨?_, ?_⟩, by decide⟩
  · simpa [get_verification_stats] using
      countP_bool_total (fun v : UserVerification => v.is_verified) l
  · simpa [get_verification_stats] using
      countP_split (fun v : UserVerification => !v.is_verified)
        (fun v : UserVerification => v.is_expired) l

/-! ### Claim theorems for the URL shortener fallback -/

/-- C3 (counterexample to the claim as stated): on a non-200 HTTP status with
no exception raised, `_create_short_url` does not return the original callback
URL unchanged — it returns the fabricated fallback
`https://short.link/{token[:8]}`. -/
theorem C3_counterexample :
    create_short_url "Bot" "tok123456789" (.response 500 true "ignored") ≠
        mkVerifyUrl "Bot" "tok123456789"
    ∧ create_short_url "Bot" "tok123456789" (.response 500 true "ignored") =
        "https://short.link/tok12345" := by decide

/-- C3 (amended): the challenge-issuing path `_create_short_url` never raises
past its boundary (it is total in the HTTP outcome) and on a raised exception
returns the original callback URL unchanged; but on a non-200 status or an
unsuccessful API response it returns the fabricated fallback
`https://short.link/{token[:8]}`, not the original URL.  The standalone
`URLShortener.shorten_url` does return the original URL unchanged on every
failure: missing API token, any exception, a non-200 status, or an invalid
body. -/
theorem C3_shortener_fallbacks (botUsername token original_url : String)
    (apiToken : Option String) :
    create_short_url botUsername token .exn = mkVerifyUrl botUsername token
    ∧ (∀ (status : Nat) (ok : Bool) (url : String),
        (status == 200 && ok) = false →
          create_short_url botUsername token (.response status ok url) =
            "https://short.link/" ++ token.take 8)
    ∧ (∀ o : HttpTextOutcome, shorten_url none original_url o = original_url)
    ∧ shorten_url apiToken original_url .exn = original_url
    ∧ (∀ (status : Nat) (body : String), status ≠ 200 →
        shorten_url apiToken original_url (.response status body) =
          original_url)
    ∧ (∀ body : String,
        (!(body.trim.isEmpty) && body.trim.startsWith "http") = false →
          shorten_url apiToken original_url (.response 200 body) =
            original_url) := by
  refine ⟨rfl, fun status ok url h => ?_, fun o => rfl, ?_,
    fun status body h => ?_, fun body h => ?_⟩
  · simp [create_short_url, h]
  · cases apiToken <;> rfl
  · cases apiToken <;> simp [shorten_url, h]
  · cases apiToken <;> simp [shorten_url, h]

/-- Witness for C3_shortener_fallbacks at concrete inputs. -/
theorem C3_shortener_fallbacks_witness :
    create_short_url "B" "tok123456789" .exn = mkVerifyUrl "B" "tok123456789"
    ∧ create_short_url "B" "tok123456789" (.response 404 true "x") =
        "https://short.link/" ++ "tok123456789".take 8
    ∧ shorten_url (some "k") "orig" (.response 500 "body") = "orig" :=
  ⟨(C3_shortener_fallbacks "B" "tok123456789" "orig" (some "k")).1,
   (C3_shortener_fallbacks "B" "tok123456789" "orig" (some "k")).2.1
     404 true "x" (by decide),
   (C3_shortener_fallbacks "B" "tok123456789" "orig" (some "k")).2.2.2.2.1
     500 "body" (by decide)⟩

/-! ### Helper lemmas for the drain loop -/

/-- Number of batches produced by one drain run: the ceiling of N / 5. -/
theorem drainBatches_length (l : List α) :
    (drainBatches l).length = (l.length + 4) / 5 := by
  induction l using drainBatches.induct with
  | case1 => simp [drainBatches]
  | case2 x xs ih =>
      rw [drainBatches]
      simp only [List.length_cons, List.length_take, List.length_drop,
        MAX_CONCURRENT_UPLOADS] at *
      omega

/-- Batches, concatenated in order, give back the queue: pops are from the
head, in FIFO order, and no item is popped twice or dropped. -/
theorem drainBatches_flatten (l : List α) : (drainBatches l).flatten = l := by
  induction l using drainBatches.induct with
  | case1 => simp [drainBatches]
  | case2 x xs ih =>
      rw [drainBatches]
      simp only [List.flatten_cons, ih]
      exact List.take_append_drop MAX_CONCURRENT_UPLOADS (x :: xs)

/-- Every batch is non-empty and holds at most `MAX_CONCURRENT_UPLOADS` items. -/
theorem drainBatches_sizes (l : List α) :
    ∀ b ∈ drainBatches l, b.length ≤ MAX_CONCURRENT_UPLOADS ∧ b ≠ [] := by
  induction l using drainBatches.induct with
  | case1 => simp [drainBatches]
  | case2 x xs ih =>
      rw [drainBatches]
      intro b hb
      rcases List.mem_cons.1 hb with h | h
      · subst h
        refine ⟨?_, ?_⟩
        · simp only [List.length_take]
          omega
        · simp [MAX_CONCURRENT_UPLOADS]
      · exact ih b h

/-- The drain trace is the batches separated by exactly one delay event: the
inter-batch sleep happens between consecutive batches and is skipped after the
final batch (when the queue has emptied). -/
theorem drainTrace_intersperse (l : List α) :
    drainTrace l =
      List.intersperse DrainEvent.delay
        ((drainBatches l).map DrainEvent.batch) := by
  induction l using drainTrace.induct with
  | case1 => simp [drainTrace, drainBatches]
  | case2 x xs ih =>
      rw [drainTrace, drainBatches]
      cases hr : (x :: xs).drop MAX_CONCURRENT_UPLOADS with
      | nil => simp [hr, drainBatches]
      | cons y ys =>
          rw [hr] at ih
          simp [List.isEmpty_cons, ih, drainBatches,
            List.intersperse_cons₂]

/-- Accumulator generalisation of the batch counting pass. -/
theorem batchCounts_aux (proc : α → ProcResult) :
    ∀ (b : List α) (p f : Nat),
      b.foldl
        (fun pf i =>
          match proc i with
          | .exn => (pf.1, pf.2 + 1)
          | .ok => (pf.1 + 1, pf.2)
          | .err => (pf.1, pf.2 + 1)) (p, f) =
      (p + b.countP (fun i => !resultFailed (proc i)),
       f + b.countP (fun i => resultFailed (proc i))) := by
  intro b
  induction b with
  | nil => intro p f; simp
  | cons x xs ih =>
      intro p f
      cases hx : proc x <;>
        simp [List.countP_cons, hx, resultFailed, ih] <;> omega

/-- One batch's counting pass counts every item, as success or as failure. -/
theorem batchCounts_spec (proc : α → ProcResult) (b : List α) :
    batchCounts proc b =
      (b.countP (fun i => !resultFailed (proc i)),
       b.countP (fun i => resultFailed (proc i))) := by
  simpa [batchCounts] using batchCounts_aux proc b 0 0

/-- The totals of a whole drain run are the per-item counts over the queue. -/
theorem drainCounts_spec (proc : α → ProcResult) (l : List α) :
    drainCounts proc l =
      (l.countP (fun i => !resultFailed (proc i)),
       l.countP (fun i => resultFailed (proc i))) := by
  induction l using drainCounts.induct proc with
  | case1 => simp [drainCounts]
  | case2 x xs ih =>
      rw [drainCounts, batchCounts_spec, ih]
      have h1 : ∀ q : α → Bool,
          (x :: xs).countP q =
            ((x :: xs).take MAX_CONCURRENT_UPLOADS).countP q +
              ((x :: xs).drop MAX_CONCURRENT_UPLOADS).countP q := by
        intro q
        conv_lhs => rw [← List.take_append_drop MAX_CONCURRENT_UPLOADS (x :: xs)]
        rw [List.countP_append]
      simp only [Prod.mk.injEq]
      exact ⟨(h1 _).symm, (h1 _).symm⟩

/-! ### Claim theorems for the drain loop -/

/-- C7: a drain run over a queue of N items processes exactly ceil(N/5) batches
(`batchSize = MAX_CONCURRENT_UPLOADS = 5`); the batches concatenate back to the
queue (each batch is popped off the head, FIFO, never more than 5 items, never
empty); and the event trace is the batches separated by single inter-batch
delays, with the delay skipped after the batch that empties the queue. -/
theorem C7_drain_fifo_batches (l : List α) :
    (drainBatches l).length = (l.length + 4) / 5
    ∧ (drainBatches l).flatten = l
    ∧ (∀ b ∈ drainBatches l, b.length ≤ MAX_CONCURRENT_UPLOADS ∧ b ≠ [])
    ∧ drainTrace l =
        List.intersperse DrainEvent.delay
          ((drainBatches l).map DrainEvent.batch) :=
  ⟨drainBatches_length l, drainBatches_flatten l, drainBatches_sizes l,
   drainTrace_intersperse l⟩

/-- Witness for C7_drain_fifo_batches on a concrete 7-item queue. -/
theorem C7_drain_fifo_batches_witness :
    (drainBatches [0, 1, 2, 3, 4, 5, 6]).length =
        (([0, 1, 2, 3, 4, 5, 6] : List Nat).length + 4) / 5
    ∧ ([0, 1, 2, 3, 4] : List Nat).length ≤ MAX_CONCURRENT_UPLOADS
    ∧ ([0, 1, 2, 3, 4] : List Nat) ≠ [] :=
  ⟨(C7_drain_fifo_batches [0, 1, 2, 3, 4, 5, 6]).1,
   ((C7_drain_fifo_batches [0, 1, 2, 3, 4, 5, 6]).2.2.1 [0, 1, 2, 3, 4]
     (by simp [drainBatches, MAX_CONCURRENT_UPLOADS])).1,
   ((C7_drain_fifo_batches [0, 1, 2, 3, 4, 5, 6]).2.2.1 [0, 1, 2, 3, 4]
     (by simp [drainBatches, MAX_CONCURRENT_UPLOADS])).2⟩

/-- C8: the drain loop is total over any queue and any per-item outcome
assignment (exceptions are absorbed as `ProcResult.exn` values by
`asyncio.gather(..., return_exceptions=True)`, never escaping the loop); its
processed count is the number of items whose processing returned success, its
failed count is the number of items that raised or returned failure, and the
two together account for every enqueued item — so one failing item never
prevents the remaining items of its batch or of later batches from being
processed and counted. -/
theorem C8_failures_isolated (proc : α → ProcResult) (l : List α) :
    (drainCounts proc l).1 = l.countP (fun i => !resultFailed (proc i))
    ∧ (drainCounts proc l).2 = l.countP (fun i => resultFailed (proc i))
    ∧ (drainCounts proc l).1 + (drainCounts proc l).2 = l.length := by
  have h := drainCounts_spec proc l
  refine ⟨by rw [h], by rw [h], ?_⟩
  rw [h]
  exact countP_bool_total (fun i => resultFailed (proc i)) l

end MovieBot
